import Mathlib

/-!
Verification of the cw-plus contract collection against its specification.

Shallow embedding: the Rust sources under `contracts/` and `packages/` are
translated into executable Lean definitions (machine integers become `Nat`;
fallible operations return `Except`; storage maps become functions into
`Option`).  Theorems below settle the specification claims against these
definitions.
-/

/-! ## Balance arithmetic (contracts/cw1-subkeys/src/balance.rs) -/

/-- Coin: a denom string together with a non-negative amount (`Uint128`). -/
structure Coin where
  denom : String
  amount : Nat
deriving Repr, DecidableEq

/-- Balance wraps a list of coins (`pub struct Balance(pub Vec<Coin>)`). -/
abbrev Balance := List Coin

/-- `Balance::has`: true iff the list of coins has at least the required amount
(the first coin with a matching denom is compared, absent denoms give false). -/
def Balance.has (b : Balance) (required : Coin) : Bool :=
  match b.find? (fun c => c.denom == required.denom) with
  | some m => required.amount ≤ m.amount
  | none => false

/-- Ordering of coins by denom, used by `normalize`'s
`sort_unstable_by(|a, b| a.denom.cmp(&b.denom))`. -/
def denomLE (a b : Coin) : Prop := a.denom ≤ b.denom

instance : DecidableRel denomLE := fun a b => inferInstanceAs (Decidable (a.denom ≤ b.denom))

instance : IsTotal Coin denomLE := ⟨fun a b => le_total a.denom b.denom⟩

instance : IsTrans Coin denomLE := ⟨fun _ _ _ h h2 => le_trans h h2⟩

/-- The duplicate-merging pass of `Balance::normalize`: the Rust code collects
every index `i` with `self[i-1].denom == self[i].denom` and, walking them from
the right, folds `self[i].amount` into `self[i-1]` and removes entry `i`.  On
any list this merges each maximal run of adjacent equal-denom entries into its
first entry, summing the amounts, which is what this recursion computes. -/
def mergeDups : List Coin → List Coin
  | [] => []
  | [c] => [c]
  | c1 :: c2 :: rest =>
    if c1.denom = c2.denom then
      mergeDups ({ denom := c1.denom, amount := c1.amount + c2.amount } :: rest)
    else
      c1 :: mergeDups (c2 :: rest)
termination_by l => l.length
decreasing_by
  all_goals simp

/-- `Balance::normalize`: drop zero amounts, sort by denom, merge adjacent
duplicate denoms by summation.  The Rust code uses `sort_unstable_by` on the
denom; insertion sort is an admissible model because sorts by denom can differ
only in the order of equal-denom runs, and those runs are immediately merged
by a commutative sum, so the observable output is the same. -/
def Balance.normalize (b : Balance) : Balance :=
  mergeDups (List.insertionSort denomLE (b.filter (fun c => c.amount != 0)))

/-- Errors of the standard cosmwasm error type that this development needs
(`StdError::underflow` records minuend and subtrahend; `not_found` is raised
by `Bucket::load` on a missing key). -/
inductive StdErr where
  | underflow (minuend subtrahend : Nat)
  | notFound
deriving Repr, DecidableEq

/-- `impl ops::Sub<Coin> for Balance` (`fn sub`): find the first entry with the
coin's denom; if present and its amount is `<=` the subtrahend the entry is
removed, if present and strictly larger it is decremented in place; if the
denom is absent the result is `StdError::underflow(0, other.amount)`. -/
def Balance.sub : Balance → Coin → Except StdErr Balance
  | [], other => .error (.underflow 0 other.amount)
  | c :: rest, other =>
    if c.denom = other.denom then
      if c.amount ≤ other.amount then .ok rest
      else .ok ({ denom := c.denom, amount := c.amount - other.amount } :: rest)
    else
      match Balance.sub rest other with
      | .ok r => .ok (c :: r)
      | .error e => .error e

/-- Total amount a balance holds in denom `d` (summed over duplicate entries). -/
def denomTotal (d : String) (l : List Coin) : Nat :=
  ((l.filter (fun c => c.denom == d)).map (fun c => c.amount)).sum

theorem denomTotal_cons (d : String) (c : Coin) (l : List Coin) :
    denomTotal d (c :: l) = (if c.denom = d then c.amount else 0) + denomTotal d l := by
  simp only [denomTotal, List.filter_cons]
  split
  · next h => simp at h; simp [h]
  · next h => simp at h; simp [h]

theorem denomTotal_perm {l1 l2 : List Coin} (h : l1.Perm l2) (d : String) :
    denomTotal d l1 = denomTotal d l2 :=
  ((h.filter _).map _).sum_eq

theorem denomTotal_filter_zero (d : String) (l : List Coin) :
    denomTotal d (l.filter (fun c => c.amount != 0)) = denomTotal d l := by
  induction l with
  | nil => rfl
  | cons c rest ih =>
    by_cases hz : c.amount = 0
    · simp [List.filter_cons, hz, denomTotal_cons, ih]
    · simp [List.filter_cons, hz, denomTotal_cons, ih]

theorem mergeDups_head_denom :
    ∀ l : List Coin, (mergeDups l).head?.map Coin.denom = l.head?.map Coin.denom := by
  intro l
  induction l using mergeDups.induct with
  | case1 => simp [mergeDups]
  | case2 c => simp [mergeDups]
  | case3 c1 c2 rest h ih => rw [mergeDups, if_pos h]; rw [ih]; rfl
  | case4 c1 c2 rest h ih => rw [mergeDups, if_neg h]; rfl

theorem mergeDups_mem_denom :
    ∀ l : List Coin, ∀ x ∈ mergeDups l, ∃ y ∈ l, x.denom = y.denom := by
  intro l
  induction l using mergeDups.induct with
  | case1 => intro x hx; rw [mergeDups] at hx; cases hx
  | case2 c =>
    intro x hx
    rw [mergeDups] at hx
    rw [List.mem_singleton] at hx
    subst hx
    exact ⟨x, List.mem_singleton.mpr rfl, rfl⟩
  | case3 c1 c2 rest h ih =>
    intro x hx
    rw [mergeDups, if_pos h] at hx
    rcases ih x hx with ⟨y, hy, hd⟩
    rcases List.mem_cons.mp hy with rfl | hy2
    · exact ⟨c1, List.mem_cons_self _ _, hd⟩
    · exact ⟨y, List.mem_cons_of_mem _ (List.mem_cons_of_mem _ hy2), hd⟩
  | case4 c1 c2 rest h ih =>
    intro x hx
    rw [mergeDups, if_neg h] at hx
    rcases List.mem_cons.mp hx with rfl | hx2
    · exact ⟨x, List.mem_cons_self _ _, rfl⟩
    · rcases ih x hx2 with ⟨y, hy, hd⟩
      exact ⟨y, List.mem_cons_of_mem _ hy, hd⟩

theorem mergeDups_sorted :
    ∀ l : List Coin, List.Pairwise denomLE l →
      List.Pairwise (fun a b : Coin => a.denom < b.denom) (mergeDups l) := by
  intro l
  induction l using mergeDups.induct with
  | case1 => intro _; simp [mergeDups]
  | case2 c => intro _; simp [mergeDups]
  | case3 c1 c2 rest h ih =>
    intro hp
    rw [mergeDups, if_pos h]
    rcases List.pairwise_cons.mp hp with ⟨h1, hp2⟩
    rcases List.pairwise_cons.mp hp2 with ⟨h2, hp3⟩
    exact ih (List.pairwise_cons.mpr
      ⟨fun y hy => h1 y (List.mem_cons_of_mem _ hy), hp3⟩)
  | case4 c1 c2 rest h ih =>
    intro hp
    rw [mergeDups, if_neg h]
    rcases List.pairwise_cons.mp hp with ⟨h1, hp2⟩
    rcases List.pairwise_cons.mp hp2 with ⟨h2, _⟩
    refine List.pairwise_cons.mpr ⟨?_, ih hp2⟩
    intro x hx
    rcases mergeDups_mem_denom _ x hx with ⟨y, hy, hd⟩
    have hc12 : c1.denom < c2.denom :=
      lt_of_le_of_ne (h1 c2 (List.mem_cons_self _ _)) h
    rcases List.mem_cons.mp hy with rfl | hy2
    · rw [hd]; exact hc12
    · rw [hd]; exact lt_of_lt_of_le hc12 (h2 y hy2)

theorem mergeDups_pos :
    ∀ l : List Coin, (∀ c ∈ l, c.amount ≠ 0) → ∀ x ∈ mergeDups l, x.amount ≠ 0 := by
  intro l
  induction l using mergeDups.induct with
  | case1 => intro _ x hx; rw [mergeDups] at hx; cases hx
  | case2 c =>
    intro hpos x hx
    rw [mergeDups] at hx
    rw [List.mem_singleton] at hx
    subst hx
    exact hpos _ (List.mem_singleton.mpr rfl)
  | case3 c1 c2 rest h ih =>
    intro hpos x hx
    rw [mergeDups, if_pos h] at hx
    refine ih ?_ x hx
    intro c hc
    rcases List.mem_cons.mp hc with rfl | hc2
    · have := hpos c1 (List.mem_cons_self _ _)
      simp only [ne_eq, Nat.add_eq_zero]
      intro ⟨h1, _⟩
      exact this h1
    · exact hpos c (List.mem_cons_of_mem _ (List.mem_cons_of_mem _ hc2))
  | case4 c1 c2 rest h ih =>
    intro hpos x hx
    rw [mergeDups, if_neg h] at hx
    rcases List.mem_cons.mp hx with rfl | hx2
    · exact hpos x (List.mem_cons_self _ _)
    · exact ih (fun c hc => hpos c (List.mem_cons_of_mem _ hc)) x hx2

theorem mergeDups_denomTotal :
    ∀ (l : List Coin) (d : String), denomTotal d (mergeDups l) = denomTotal d l := by
  intro l
  induction l using mergeDups.induct with
  | case1 => intro d; simp [mergeDups]
  | case2 c => intro d; simp [mergeDups]
  | case3 c1 c2 rest h ih =>
    intro d
    rw [mergeDups, if_pos h, ih]
    rw [denomTotal_cons, denomTotal_cons, denomTotal_cons]
    simp only [h]
    split <;> omega
  | case4 c1 c2 rest h ih =>
    intro d
    rw [mergeDups, if_neg h]
    rw [denomTotal_cons, denomTotal_cons, ih]

theorem mergeDups_of_strict :
    ∀ l : List Coin, List.Pairwise (fun a b : Coin => a.denom < b.denom) l →
      mergeDups l = l := by
  intro l
  induction l using mergeDups.induct with
  | case1 => intro _; simp [mergeDups]
  | case2 c => intro _; simp [mergeDups]
  | case3 c1 c2 rest h ih =>
    intro hp
    rcases List.pairwise_cons.mp hp with ⟨h1, _⟩
    exact absurd (h ▸ h1 c2 (List.mem_cons_self _ _)) (lt_irrefl _)
  | case4 c1 c2 rest h ih =>
    intro hp
    rw [mergeDups, if_neg h, ih (List.pairwise_cons.mp hp).2]

theorem Balance.normalize_sorted (b : Balance) :
    List.Pairwise (fun a c : Coin => a.denom < c.denom) (Balance.normalize b) :=
  mergeDups_sorted _ (List.sorted_insertionSort denomLE _)

theorem Balance.normalize_pos (b : Balance) : ∀ c ∈ Balance.normalize b, c.amount ≠ 0 := by
  refine mergeDups_pos _ ?_
  intro c hc
  have := (List.mem_insertionSort denomLE).mp hc
  have := List.of_mem_filter this
  simpa using this

theorem Balance.normalize_denomTotal (b : Balance) (d : String) :
    denomTotal d (Balance.normalize b) = denomTotal d b := by
  unfold Balance.normalize
  rw [mergeDups_denomTotal, denomTotal_perm (List.perm_insertionSort denomLE _),
    denomTotal_filter_zero]

theorem Balance.normalize_idem (b : Balance) :
    Balance.normalize (Balance.normalize b) = Balance.normalize b := by
  have hs := Balance.normalize_sorted b
  have hpos := Balance.normalize_pos b
  have h1 : (Balance.normalize b).filter (fun c => c.amount != 0) = Balance.normalize b := by
    refine List.filter_eq_self.mpr ?_
    intro c hc
    simpa using hpos c hc
  have h2 : List.insertionSort denomLE (Balance.normalize b) = Balance.normalize b := by
    refine List.Sorted.insertionSort_eq ?_
    exact hs.imp (fun h => le_of_lt h)
  conv_lhs => rw [Balance.normalize, h1, h2]
  exact mergeDups_of_strict _ hs

/-- C8: normalization is idempotent, and its output has strictly increasing
denoms (hence no duplicates), no zero-amount entries, and preserves the total
amount of every denom (duplicates merged by summation). -/
theorem C8_normalize_idempotent_canonical (b : Balance) :
    Balance.normalize (Balance.normalize b) = Balance.normalize b ∧
    List.Pairwise (fun a c : Coin => a.denom < c.denom) (Balance.normalize b) ∧
    (∀ c ∈ Balance.normalize b, c.amount ≠ 0) ∧
    (∀ d, denomTotal d (Balance.normalize b) = denomTotal d b) :=
  ⟨Balance.normalize_idem b, Balance.normalize_sorted b, Balance.normalize_pos b, Balance.normalize_denomTotal b⟩

/-- C1 (code bug evidence): subtracting `666 BTC` from a balance holding only
`555 BTC` does not return an Underflow error; the code silently removes the
whole entry (clamping to zero).  The source file's own unit test
(`balance_subtract_works`, "subtract more than we have") asserts this very
call must be an error, so the code contradicts its own test and the spec. -/
theorem C1_sub_clamps_instead_of_underflow :
    Balance.sub [⟨"BTC", 555⟩, ⟨"ETH", 12345⟩] ⟨"BTC", 666⟩ = .ok [⟨"ETH", 12345⟩] := rfl

/-! ## Atomic swap state machine (contracts/cw20-atomic-swap/src/contract.rs, state.rs) -/

/-- Block metadata from the host environment (`env.block`). -/
structure BlockInfo where
  height : Nat
  time : Nat
deriving Repr, DecidableEq

/-- Modelled from the spec: `Expiration` (the cw20/cw0 expiration module is
absent from the sources).  Per the spec an expiration is "a point in time
expressed as either a block height threshold or a timestamp threshold"; it is
reached once the block height / time passes the threshold, and `Never` never
expires. -/
inductive Expiration where
  | atHeight (h : Nat)
  | atTime (t : Nat)
  | never
deriving Repr, DecidableEq

/-- Modelled from the spec: whether an expiration threshold has been reached at
the given block. -/
def Expiration.isExpired : Expiration → BlockInfo → Bool
  | .atHeight h, b => h ≤ b.height
  | .atTime t, b => t ≤ b.time
  | .never, _ => false

/-- Cw20Coin (packages/cw20/src/coin.rs): a token contract address with an
amount. -/
structure Cw20Coin where
  address : String
  amount : Nat
deriving Repr, DecidableEq

/-- Modelled from the spec: the cw20 `Balance` funding enum used by the swap
(native coin list or a single cw20 token); the balance module itself is absent
from the sources.  `isEmpty` mirrors `Balance::is_empty`. -/
inductive SwapBalance where
  | native (coins : List Coin)
  | cw20 (token : Cw20Coin)
deriving Repr, DecidableEq

def SwapBalance.isEmpty : SwapBalance → Bool
  | .native coins => coins.isEmpty
  | .cw20 token => token.amount == 0

/-- ContractError of cw20-atomic-swap (src/error.rs).  The `ParseError(String)`
message payload is omitted; `Std` carries the wrapped standard error. -/
inductive SwapError where
  | std (e : StdErr)
  | noData
  | parseError
  | invalidId
  | invalidPreimage
  | invalidHash (chars : Nat)
  | emptyBalance
  | notExpired
  | expired
  | alreadyExists
deriving Repr, DecidableEq

/-- Value of one hexadecimal digit (the `hex` crate accepts both cases). -/
def hexVal (c : Char) : Option Nat :=
  if '0' ≤ c ∧ c ≤ '9' then some (c.toNat - '0'.toNat)
  else if 'a' ≤ c ∧ c ≤ 'f' then some (c.toNat - 'a'.toNat + 10)
  else if 'A' ≤ c ∧ c ≤ 'F' then some (c.toNat - 'A'.toNat + 10)
  else none

/-- `hex::decode`: two characters per byte; odd length or a non-hex character
fails. -/
def hexDecodePairs : List Char → Option (List Nat)
  | [] => some []
  | [_] => none
  | c1 :: c2 :: rest =>
    match hexVal c1, hexVal c2, hexDecodePairs rest with
    | some h, some lo, some r => some ((h * 16 + lo) :: r)
    | _, _, _ => none

/-- `parse_hex_32`: hex-decode and insist on exactly 32 bytes; a decode failure
is `ParseError`, a wrong byte count is `InvalidHash(len * 2)`. -/
def parse_hex_32 (data : String) : Except SwapError (List Nat) :=
  match hexDecodePairs data.toList with
  | none => .error .parseError
  | some bin => if bin.length = 32 then .ok bin else .error (.invalidHash (bin.length * 2))

/-- AtomicSwap record (state.rs): sha-256 hash of the preimage, the two
parties, the expiration and the escrowed balance. -/
structure AtomicSwap where
  hash : List Nat
  recipient : String
  source : String
  expires : Expiration
  balance : SwapBalance
deriving Repr, DecidableEq

def AtomicSwap.is_expired (s : AtomicSwap) (b : BlockInfo) : Bool :=
  s.expires.isExpired b

/-- Modelled from the spec: `is_valid_name` from the contract's `msg.rs`
(absent from the sources): a swap id must be 3 to 20 bytes, as exercised by the
contract's tests (ids "sh" and "atomic_swap_id_too_long" are rejected). -/
def is_valid_name (id : String) : Bool :=
  3 ≤ id.utf8ByteSize && id.utf8ByteSize ≤ 20

/-- CreateMsg fields used by `try_create` (the enclosing `msg.rs` is absent
from the sources; fields are exactly those read by the contract). -/
structure CreateMsg where
  id : String
  hash : String
  recipient : String
  expires : Expiration
deriving Repr, DecidableEq

/-- Swap storage: the bucket keyed by id; absence of a key is the terminal
(consumed) state. -/
def SwapsState := String → Option AtomicSwap

/-- Point update of the swap bucket (save / remove). -/
def updateSwap (s : SwapsState) (id : String) (v : Option AtomicSwap) : SwapsState :=
  fun k => if k = id then v else s k

structure SwapEnv where
  block : BlockInfo
  contractAddr : String

/-- Outbound messages emitted by the swap contract. -/
inductive SwapMsgOut where
  | bankSend (fromAddr toAddr : String) (amount : List Coin)
  | cw20Transfer (contractAddr recipient : String) (amount : Nat)
deriving Repr, DecidableEq

/-- `send_tokens` of the swap contract: nothing for an empty balance, one bank
send for native coins, one cw20 transfer for a token. -/
def swap_send_tokens (fromAddr toAddr : String) (amount : SwapBalance) : List SwapMsgOut :=
  if amount.isEmpty then []
  else match amount with
    | .native coins => [.bankSend fromAddr toAddr coins]
    | .cw20 token => [.cw20Transfer token.address toAddr token.amount]

/-- `try_create`: reject invalid ids, empty funding, malformed hashes and
already-passed expirations; then store the swap, failing with `AlreadyExists`
when the id is taken. -/
def try_create (env : SwapEnv) (sender : String) (msg : CreateMsg) (balance : SwapBalance)
    (s : SwapsState) : Except SwapError (SwapsState × List SwapMsgOut) :=
  if ¬ is_valid_name msg.id then .error .invalidId
  else if balance.isEmpty then .error .emptyBalance
  else match parse_hex_32 msg.hash with
    | .error e => .error e
    | .ok hash =>
      if msg.expires.isExpired env.block then .error .expired
      else match s msg.id with
        | some _ => .error .alreadyExists
        | none =>
          .ok (updateSwap s msg.id (some ⟨hash, msg.recipient, sender, msg.expires, balance⟩), [])

/-- `try_release`: load the swap (`NotFound` when absent), reject expired
swaps, hex-decode the preimage, compare its digest byte-for-byte with the
stored hash, then delete the record and pay the recipient.  The digest
function is a parameter (`sha2::Sha256` is an external collaborator). -/
def try_release (hashFn : List Nat → List Nat) (env : SwapEnv) (id preimage : String)
    (s : SwapsState) : Except SwapError (SwapsState × List SwapMsgOut) :=
  match s id with
  | none => .error (.std .notFound)
  | some swap =>
    if swap.is_expired env.block then .error .expired
    else match parse_hex_32 preimage with
      | .error e => .error e
      | .ok bin =>
        if hashFn bin = swap.hash then
          .ok (updateSwap s id none, swap_send_tokens env.contractAddr swap.recipient swap.balance)
        else .error .invalidPreimage

/-- `try_refund`: anyone may refund once the swap is expired; deletes the
record and pays the source. -/
def try_refund (env : SwapEnv) (id : String) (s : SwapsState) :
    Except SwapError (SwapsState × List SwapMsgOut) :=
  match s id with
  | none => .error (.std .notFound)
  | some swap =>
    if ¬ swap.is_expired env.block then .error .notExpired
    else .ok (updateSwap s id none, swap_send_tokens env.contractAddr swap.source swap.balance)

/-- Execute-message enum of the swap contract (the cw20 `Receive` wrapper is
routed to `try_create` with the token funding, so `create` covers both entry
paths). -/
inductive SwapMsg where
  | create (sender : String) (msg : CreateMsg) (balance : SwapBalance)
  | release (id preimage : String)
  | refund (id : String)
deriving Repr, DecidableEq

/-- Dispatch of `handle` for the swap contract. -/
def swap_handle (hashFn : List Nat → List Nat) (env : SwapEnv) (m : SwapMsg) (s : SwapsState) :
    Except SwapError (SwapsState × List SwapMsgOut) :=
  match m with
  | .create sender msg bal => try_create env sender msg bal s
  | .release id pre => try_release hashFn env id pre s
  | .refund id => try_refund env id s

/-- One host-level step: a failed invocation leaves storage untouched
(transactional rollback), a successful one commits the new storage. -/
def swapStep (hashFn : List Nat → List Nat) (s : SwapsState) (p : SwapEnv × SwapMsg) :
    Except SwapError (List SwapMsgOut) × SwapsState :=
  match swap_handle hashFn p.1 p.2 s with
  | .ok (s2, msgs) => (.ok msgs, s2)
  | .error e => (.error e, s)

/-- Does this message attempt to consume (release or refund) the given id? -/
def consumesOn (id : String) : SwapMsg → Bool
  | .release i _ => i == id
  | .refund i => i == id
  | .create _ _ _ => false

/-- Does this message attempt to create the given id? -/
def createsOn (id : String) : SwapMsg → Bool
  | .create _ m _ => m.id == id
  | .release _ _ => false
  | .refund _ => false

/-- Run a message sequence, collecting the results of every release / refund
attempt on the given id, together with the final storage. -/
def swapRunOn (hashFn : List Nat → List Nat) (id : String) :
    SwapsState → List (SwapEnv × SwapMsg) →
      List (Except SwapError (List SwapMsgOut)) × SwapsState
  | s, [] => ([], s)
  | s, p :: rest =>
    let r := swapStep hashFn s p
    let rs := swapRunOn hashFn id r.2 rest
    (if consumesOn id p.2 then r.1 :: rs.1 else rs.1, rs.2)

def isOkE : Except SwapError (List SwapMsgOut) → Bool
  | .ok _ => true
  | .error _ => false

/-- Every result that comes after a successful one in the list is a NotFound
error. -/
def afterOkNotFound : List (Except SwapError (List SwapMsgOut)) → Prop
  | [] => True
  | r :: rs => (isOkE r = true → ∀ x ∈ rs, x = .error (.std .notFound)) ∧ afterOkNotFound rs

theorem try_create_ok_state {env : SwapEnv} {sender : String} {msg : CreateMsg}
    {bal : SwapBalance} {s : SwapsState} {v : SwapsState × List SwapMsgOut}
    (h : try_create env sender msg bal s = .ok v) :
    ∃ swap, v.1 = updateSwap s msg.id (some swap) := by
  unfold try_create at h
  split at h
  · simp at h
  · split at h
    · simp at h
    · split at h
      · simp at h
      · split at h
        · simp at h
        · split at h
          · simp at h
          · rcases h with ⟨⟩
            exact ⟨_, rfl⟩

theorem try_release_ok_state {hashFn : List Nat → List Nat} {env : SwapEnv}
    {id preimage : String} {s : SwapsState} {v : SwapsState × List SwapMsgOut}
    (h : try_release hashFn env id preimage s = .ok v) :
    v.1 = updateSwap s id none := by
  unfold try_release at h
  split at h
  · simp at h
  · split at h
    · simp at h
    · split at h
      · simp at h
      · split at h
        · rcases h with ⟨⟩
          rfl
        · simp at h

theorem try_refund_ok_state {env : SwapEnv} {id : String} {s : SwapsState}
    {v : SwapsState × List SwapMsgOut}
    (h : try_refund env id s = .ok v) : v.1 = updateSwap s id none := by
  unfold try_refund at h
  split at h
  · simp at h
  · split at h
    · simp at h
    · rcases h with ⟨⟩
      rfl

theorem try_release_absent (hashFn : List Nat → List Nat) (env : SwapEnv)
    (id preimage : String) (s : SwapsState) (h : s id = none) :
    try_release hashFn env id preimage s = .error (.std .notFound) := by
  unfold try_release
  rw [h]

theorem try_refund_absent (env : SwapEnv) (id : String) (s : SwapsState) (h : s id = none) :
    try_refund env id s = .error (.std .notFound) := by
  unfold try_refund
  rw [h]

theorem swapStep_preserves_none (hashFn : List Nat → List Nat) (s : SwapsState)
    (p : SwapEnv × SwapMsg) (id : String)
    (hnc : createsOn id p.2 = false) (h0 : s id = none) :
    (swapStep hashFn s p).2 id = none := by
  rcases p with ⟨env, m⟩
  cases m with
  | create sender msg bal =>
    cases h : try_create env sender msg bal s with
    | error e => simp [swapStep, swap_handle, h, h0]
    | ok v =>
      rcases try_create_ok_state h with ⟨swap, hv⟩
      have hne : id ≠ msg.id := by
        simp only [createsOn, beq_eq_false_iff_ne, ne_eq] at hnc
        exact fun he => hnc he.symm
      simp only [swapStep, swap_handle, h]
      rw [hv]
      simp [updateSwap, hne, h0]
  | release i pre =>
    cases h : try_release hashFn env i pre s with
    | error e => simp [swapStep, swap_handle, h, h0]
    | ok v =>
      have hv := try_release_ok_state h
      simp only [swapStep, swap_handle, h]
      rw [hv]
      by_cases hii : id = i
      · simp [updateSwap, hii]
      · simp [updateSwap, hii, h0]
  | refund i =>
    cases h : try_refund env i s with
    | error e => simp [swapStep, swap_handle, h, h0]
    | ok v =>
      have hv := try_refund_ok_state h
      simp only [swapStep, swap_handle, h]
      rw [hv]
      by_cases hii : id = i
      · simp [updateSwap, hii]
      · simp [updateSwap, hii, h0]

theorem swapStep_consume_absent (hashFn : List Nat → List Nat) (s : SwapsState)
    (env : SwapEnv) (m : SwapMsg) (id : String)
    (hc : consumesOn id m = true) (h0 : s id = none) :
    swapStep hashFn s (env, m) = (.error (.std .notFound), s) := by
  cases m with
  | create sender msg bal => simp [consumesOn] at hc
  | release i pre =>
    have hi : i = id := by simpa [consumesOn] using hc
    subst hi
    simp [swapStep, swap_handle, try_release_absent hashFn env i pre s h0]
  | refund i =>
    have hi : i = id := by simpa [consumesOn] using hc
    subst hi
    simp [swapStep, swap_handle, try_refund_absent env i s h0]

theorem swapStep_consume_ok_none (hashFn : List Nat → List Nat) (s : SwapsState)
    (env : SwapEnv) (m : SwapMsg) (id : String) (outs : List SwapMsgOut)
    (hc : consumesOn id m = true) (hr : (swapStep hashFn s (env, m)).1 = .ok outs) :
    (swapStep hashFn s (env, m)).2 id = none := by
  cases m with
  | create sender msg bal => simp [consumesOn] at hc
  | release i pre =>
    have hi : i = id := by simpa [consumesOn] using hc
    subst hi
    cases h : try_release hashFn env i pre s with
    | error e => simp [swapStep, swap_handle, h] at hr
    | ok v =>
      have hv := try_release_ok_state h
      simp only [swapStep, swap_handle, h]
      rw [hv]
      simp [updateSwap]
  | refund i =>
    have hi : i = id := by simpa [consumesOn] using hc
    subst hi
    cases h : try_refund env i s with
    | error e => simp [swapStep, swap_handle, h] at hr
    | ok v =>
      have hv := try_refund_ok_state h
      simp only [swapStep, swap_handle, h]
      rw [hv]
      simp [updateSwap]

theorem swapRunOn_absent (hashFn : List Nat → List Nat) (id : String) :
    ∀ (msgs : List (SwapEnv × SwapMsg)) (s : SwapsState),
      (∀ p ∈ msgs, createsOn id p.2 = false) → s id = none →
      (∀ r ∈ (swapRunOn hashFn id s msgs).1, r = .error (.std .notFound)) ∧
        (swapRunOn hashFn id s msgs).2 id = none := by
  intro msgs
  induction msgs with
  | nil =>
    intro s _ h0
    exact ⟨fun r hr => absurd hr (by simp [swapRunOn]), by simpa [swapRunOn] using h0⟩
  | cons p rest ih =>
    intro s hnc h0
    have hncp : createsOn id p.2 = false := hnc p (List.mem_cons_self _ _)
    have hstep : (swapStep hashFn s p).2 id = none :=
      swapStep_preserves_none hashFn s p id hncp h0
    have ihr := ih (swapStep hashFn s p).2
      (fun q hq => hnc q (List.mem_cons_of_mem _ hq)) hstep
    by_cases hc : consumesOn id p.2 = true
    · rcases p with ⟨env, m⟩
      have hfail := swapStep_consume_absent hashFn s env m id hc h0
      constructor
      · intro r hr
        simp only [swapRunOn, hc, if_pos] at hr
        rcases List.mem_cons.mp hr with rfl | hr2
        · rw [hfail]
        · exact ihr.1 r hr2
      · simp only [swapRunOn]
        exact ihr.2
    · constructor
      · intro r hr
        simp only [swapRunOn, hc, if_neg, if_false] at hr
        exact ihr.1 r hr
      · simp only [swapRunOn]
        exact ihr.2

theorem afterOkNotFound_of_all (rs : List (Except SwapError (List SwapMsgOut)))
    (h : ∀ r ∈ rs, r = .error (.std .notFound)) : afterOkNotFound rs := by
  induction rs with
  | nil => trivial
  | cons r rest ih =>
    refine ⟨?_, ih (fun x hx => h x (List.mem_cons_of_mem _ hx))⟩
    intro hok
    have hr := h r (List.mem_cons_self _ _)
    rw [hr] at hok
    simp [isOkE] at hok

/-- C5 (amended): between one successful `Create` of an id and the next
successful `Create` reusing it — that is, along any message sequence containing
no `Create` for the id — at most one `Release` / `Refund` on that id succeeds,
and every attempt after a success fails with `NotFound` (the success deleted
the record). -/
theorem C5_swap_single_consumption_between_creates (hashFn : List Nat → List Nat) (id : String) :
    ∀ (msgs : List (SwapEnv × SwapMsg)) (s : SwapsState),
      (∀ p ∈ msgs, createsOn id p.2 = false) →
      (swapRunOn hashFn id s msgs).1.countP isOkE ≤ 1 ∧
        afterOkNotFound (swapRunOn hashFn id s msgs).1 := by
  intro msgs
  induction msgs with
  | nil => intro s _; exact ⟨by simp [swapRunOn], trivial⟩
  | cons p rest ih =>
    intro s hnc
    have hrest := ih (swapStep hashFn s p).2
      (fun q hq => hnc q (List.mem_cons_of_mem _ hq))
    by_cases hc : consumesOn id p.2 = true
    · rcases p with ⟨env, m⟩
      cases hr : (swapStep hashFn s (env, m)).1 with
      | ok outs =>
        have h2 : (swapStep hashFn s (env, m)).2 id = none :=
          swapStep_consume_ok_none hashFn s env m id outs hc hr
        have habs := swapRunOn_absent hashFn id rest (swapStep hashFn s (env, m)).2
          (fun q hq => hnc q (List.mem_cons_of_mem _ hq)) h2
        have hz : (swapRunOn hashFn id (swapStep hashFn s (env, m)).2 rest).1.countP isOkE = 0 := by
          refine List.countP_eq_zero.mpr ?_
          intro a ha
          rw [habs.1 a ha]
          simp [isOkE]
        constructor
        · simp only [swapRunOn, hc, if_pos, List.countP_cons, hr, hz]
          simp [isOkE]
        · simp only [swapRunOn, hc, if_pos, hr, afterOkNotFound]
          exact ⟨fun _ => habs.1, afterOkNotFound_of_all _ habs.1⟩
      | error e =>
        constructor
        · simp only [swapRunOn, hc, if_pos, List.countP_cons, hr]
          simpa [isOkE] using hrest.1
        · simp only [swapRunOn, hc, if_pos, hr, afterOkNotFound]
          refine ⟨?_, hrest.2⟩
          intro hok
          simp [isOkE] at hok
    · simp only [swapRunOn, hc, if_neg, if_false]
      exact hrest

/-- Placeholder digest function for concrete runs: the digest of the decoded
preimage bytes is the bytes themselves (`sha2` is an opaque external
collaborator, so the machine is parametric in it; the concrete traces below
only need some function whose value on the chosen preimage matches the stored
hash, exactly as "preimage matching the stored hash" requires). -/
def swapIdDigest : List Nat → List Nat := fun l => l

def zeros64 : String :=
  "0000000000000000000000000000000000000000000000000000000000000000"

def swapCEEnv : SwapEnv := ⟨⟨10, 100⟩, "contract"⟩

def swapCECreate : CreateMsg := ⟨"swap0001", zeros64, "rcpt", .atHeight 1000⟩

def swapCEBal : SwapBalance := .native [⟨"tokens", 100⟩]

/-- Create the swap, release it with the matching preimage, create the same id
again (the store is free again, so `Create` succeeds), and release once more. -/
def swapCETrace : List (SwapEnv × SwapMsg) :=
  [(swapCEEnv, .create "alice" swapCECreate swapCEBal),
   (swapCEEnv, .release "swap0001" zeros64),
   (swapCEEnv, .create "alice" swapCECreate swapCEBal),
   (swapCEEnv, .release "swap0001" zeros64)]

def emptySwaps : SwapsState := fun _ => none

/-- C5 counterexample: over a message sequence that re-`Create`s the id after
it was consumed, two `Release(id, preimage matching the stored hash)` calls
succeed for the same id, so "at most one of Release and Refund ever succeeds
over any sequence of messages" is false as stated. -/
theorem C5_counterexample_release_succeeds_twice :
    ((swapRunOn swapIdDigest "swap0001" emptySwaps swapCETrace).1.countP isOkE) = 2 := by
  decide

def swapWSwap : AtomicSwap := ⟨List.replicate 32 0, "rcpt", "alice", .atHeight 1000, swapCEBal⟩

def swapWState : SwapsState := fun k => if k = "s1" then some swapWSwap else none

def swapWTrace : List (SwapEnv × SwapMsg) :=
  [(swapCEEnv, .release "s1" zeros64), (swapCEEnv, .refund "s1")]

theorem C5_swap_single_consumption_witness :
    (swapRunOn swapIdDigest "s1" swapWState swapWTrace).1.countP isOkE ≤ 1 ∧
      afterOkNotFound (swapRunOn swapIdDigest "s1" swapWState swapWTrace).1 :=
  C5_swap_single_consumption_between_creates swapIdDigest "s1" swapWTrace swapWState (by decide)

theorem hexPairs_ok :
    ∀ (l : List Char) (bin : List Nat), hexDecodePairs l = some bin →
      l.length = 2 * bin.length ∧ ∀ c ∈ l, (hexVal c).isSome := by
  intro l
  induction l using hexDecodePairs.induct with
  | case1 =>
    intro bin h
    rw [hexDecodePairs] at h
    cases h
    simp
  | case2 c =>
    intro bin h
    rw [hexDecodePairs] at h
    simp at h
  | case3 c1 c2 rest h1 lo r hr hh hlo ih =>
    intro bin h
    rw [hexDecodePairs] at h
    rw [hh, hlo, hr] at h
    cases h
    rcases ih r hr with ⟨hlen, hall⟩
    constructor
    · simp only [List.length_cons, hlen]
      omega
    · intro c hc
      rcases List.mem_cons.mp hc with he | hc2
      · subst he
        rw [hlo]
        rfl
      · rcases List.mem_cons.mp hc2 with he | hc3
        · subst he
          rw [hh]
          rfl
        · exact hall c hc3
  | case4 c1 c2 rest hbad ih =>
    intro bin h
    rw [hexDecodePairs] at h
    split at h
    · next a b r => exact (hbad _ _ _ a b r).elim
    · simp at h

theorem parse_hex_32_ok_shape {data : String} {bin : List Nat}
    (h : parse_hex_32 data = .ok bin) :
    data.toList.length = 64 ∧ ∀ c ∈ data.toList, (hexVal c).isSome := by
  unfold parse_hex_32 at h
  split at h
  · exact absurd h (by simp)
  · rename_i b hd
    split at h
    · rename_i h32
      injection h with hbb
      subst hbb
      rcases hexPairs_ok _ _ hd with ⟨hlen, hall⟩
      exact ⟨by omega, hall⟩
    · exact absurd h (by simp)

/-- C10: a preimage that is not exactly 64 hexadecimal characters (i.e. does
not decode to exactly 32 bytes) can never release a swap — `parse_hex_32`
rejects it with `ParseError` (bad character / odd length) or `InvalidHash`
(wrong byte count) before any digest comparison, for every possible digest
function, so even a digest collision on the decoded bytes cannot help. -/
theorem C10_release_requires_hex64_preimage (hashFn : List Nat → List Nat) (env : SwapEnv)
    (id preimage : String) (s : SwapsState)
    (h : ¬ (preimage.toList.length = 64 ∧ ∀ c ∈ preimage.toList, (hexVal c).isSome)) :
    (∀ v, try_release hashFn env id preimage s ≠ .ok v) ∧
      (∀ swap, s id = some swap → swap.is_expired env.block = false →
        (try_release hashFn env id preimage s = .error .parseError ∨
          ∃ n, try_release hashFn env id preimage s = .error (.invalidHash n))) := by
  have hpe : parse_hex_32 preimage = .error .parseError ∨
      ∃ n, parse_hex_32 preimage = .error (.invalidHash n) := by
    unfold parse_hex_32
    cases hd : hexDecodePairs preimage.toList with
    | none => exact .inl rfl
    | some bin =>
      have hlen : ¬ bin.length = 32 := by
        intro h32
        rcases hexPairs_ok _ _ hd with ⟨hl, ha⟩
        exact h ⟨by omega, ha⟩
      right
      exact ⟨bin.length * 2, by simp [hlen]⟩
  constructor
  · intro v hv
    unfold try_release at hv
    cases hs : s id with
    | none => rw [hs] at hv; simp at hv
    | some swap =>
      rw [hs] at hv
      by_cases hexp : swap.is_expired env.block
      · simp [hexp] at hv
      · rcases hpe with hp | ⟨n, hp⟩ <;> simp [hexp, hp] at hv
  · intro swap hs hexp
    unfold try_release
    rw [hs]
    rcases hpe with hp | ⟨n, hp⟩
    · left
      simp [hexp, hp]
    · right
      exact ⟨n, by simp [hexp, hp]⟩

theorem C10_release_requires_hex64_preimage_witness :
    (¬ (("zz" : String).toList.length = 64 ∧
        ∀ c ∈ ("zz" : String).toList, (hexVal c).isSome)) ∧
      ((∀ v, try_release swapIdDigest swapCEEnv "s1" "zz" swapWState ≠ .ok v) ∧
        (∀ swap, swapWState "s1" = some swap → swap.is_expired swapCEEnv.block = false →
          (try_release swapIdDigest swapCEEnv "s1" "zz" swapWState = .error .parseError ∨
            ∃ n, try_release swapIdDigest swapCEEnv "s1" "zz" swapWState =
              .error (.invalidHash n)))) :=
  ⟨by decide, C10_release_requires_hex64_preimage swapIdDigest swapCEEnv "s1" "zz" swapWState
    (by decide)⟩

/-! ## Escrow (contracts/cw20-escrow/src/contract.rs, state.rs) -/

/-- GenericBalance as used by the escrow contract: native coins plus cw20
token entries. -/
structure GenericBalance where
  native : List Coin
  cw20 : List Cw20Coin
deriving Repr, DecidableEq

/-- Escrow record (state.rs), with addresses as strings (the address
canonicalization api is an external collaborator, modelled as the identity). -/
structure Escrow where
  arbiter : String
  recipient : String
  source : String
  end_height : Option Nat
  end_time : Option Nat
  balance : GenericBalance
  cw20_whitelist : List String
deriving Repr, DecidableEq

/-- `Escrow::is_expired` (state.rs): expired as soon as the block height
strictly exceeds `end_height`, or the block time strictly exceeds `end_time`;
either bound alone suffices, unset bounds never trigger. -/
def Escrow.is_expired (e : Escrow) (block : BlockInfo) : Bool :=
  (match e.end_height with
   | some h => block.height > h
   | none => false) ||
  (match e.end_time with
   | some t => block.time > t
   | none => false)

/-- ContractError of cw20-escrow (the `error.rs` file is absent from the
sources; the variants are those raised in `contract.rs`). -/
inductive EscrowError where
  | std (e : StdErr)
  | noData
  | emptyBalance
  | alreadyInUse
  | notInWhitelist
  | unauthorized
  | expired
deriving Repr, DecidableEq

/-- Outbound messages of the escrow contract. -/
inductive EscrowMsgOut where
  | bankSend (fromAddr toAddr : String) (amount : List Coin)
  | cw20Transfer (contractAddr recipient : String) (amount : Nat)
deriving Repr, DecidableEq

/-- `send_tokens` of the escrow contract: one bank send carrying the whole
native balance (omitted when there are no native coins), then one cw20
transfer per token entry, in storage order. -/
def escrow_send_tokens (fromAddr toAddr : String) (balance : GenericBalance) :
    List EscrowMsgOut :=
  (if balance.native.isEmpty then []
   else [.bankSend fromAddr toAddr balance.native]) ++
    balance.cw20.map (fun c => .cw20Transfer c.address toAddr c.amount)

/-- Escrow storage keyed by id. -/
def EscrowsState := String → Option Escrow

def updateEscrow (s : EscrowsState) (id : String) (v : Option Escrow) : EscrowsState :=
  fun k => if k = id then v else s k

/-- `try_approve`: load the escrow (`NotFound` when absent), reject callers
other than the arbiter (`Unauthorized`, checked first), reject expired escrows
(`Expired`), then delete the record and emit the full-balance transfer to the
recipient. -/
def try_approve (block : BlockInfo) (contractAddr sender id : String) (s : EscrowsState) :
    Except EscrowError (EscrowsState × List EscrowMsgOut) :=
  match s id with
  | none => .error (.std .notFound)
  | some escrow =>
    if sender ≠ escrow.arbiter then .error .unauthorized
    else if escrow.is_expired block then .error .expired
    else
      .ok (updateEscrow s id none,
        escrow_send_tokens contractAddr escrow.recipient escrow.balance)

/-- C6: for an existing escrow, `Approve` succeeds iff the caller is the stored
arbiter and the escrow is not expired; a non-arbiter caller gets
`Unauthorized`, the arbiter on an expired escrow gets `Expired`; on success the
record is deleted and the messages move the entire balance to the recipient —
one bank send with all native coins (when any) followed by one token transfer
per cw20 entry in storage order. -/
theorem C6_approve_behaviour (block : BlockInfo) (contractAddr sender id : String)
    (s : EscrowsState) (escrow : Escrow) (hs : s id = some escrow) :
    ((∃ v, try_approve block contractAddr sender id s = .ok v) ↔
      (sender = escrow.arbiter ∧ escrow.is_expired block = false)) ∧
      (sender ≠ escrow.arbiter →
        try_approve block contractAddr sender id s = .error .unauthorized) ∧
      (sender = escrow.arbiter → escrow.is_expired block = true →
        try_approve block contractAddr sender id s = .error .expired) ∧
      (∀ s2 msgs, try_approve block contractAddr sender id s = .ok (s2, msgs) →
        s2 id = none ∧
          msgs = (if escrow.balance.native.isEmpty then []
              else [.bankSend contractAddr escrow.recipient escrow.balance.native]) ++
            escrow.balance.cw20.map
              (fun c => .cw20Transfer c.address escrow.recipient c.amount)) := by
  have hred : try_approve block contractAddr sender id s =
      if sender ≠ escrow.arbiter then .error .unauthorized
      else if escrow.is_expired block then .error .expired
      else .ok (updateEscrow s id none,
        escrow_send_tokens contractAddr escrow.recipient escrow.balance) := by
    unfold try_approve
    rw [hs]
  rw [hred]
  by_cases harb : sender = escrow.arbiter
  · rw [if_neg (not_not_intro harb)]
    by_cases hexp : escrow.is_expired block
    · rw [if_pos hexp]
      refine ⟨?_, ?_, ?_, ?_⟩
      · simp [harb, hexp]
      · intro hne
        exact absurd harb hne
      · intro _ _
        rfl
      · intro s2 msgs hm
        cases hm
    · rw [if_neg hexp]
      refine ⟨?_, ?_, ?_, ?_⟩
      · simp [harb, hexp]
      · intro hne
        exact absurd harb hne
      · intro _ he
        exact absurd he hexp
      · intro s2 msgs hm
        rcases hm with ⟨⟩
        exact ⟨by simp [updateEscrow], rfl⟩
  · rw [if_pos harb]
    refine ⟨?_, ?_, ?_, ?_⟩
    · constructor
      · intro ⟨v, hv⟩
        cases hv
      · intro ⟨he, _⟩
        exact absurd he harb
    · intro _
      rfl
    · intro he
      exact absurd he harb
    · intro s2 msgs hm
      cases hm

def escrowW : Escrow :=
  ⟨"arbitrate", "recd", "source", some 123456, none,
    ⟨[⟨"fee", 100⟩, ⟨"stake", 500⟩], [⟨"bar_token", 7890⟩, ⟨"foo_token", 888⟩]⟩,
    ["bar_token", "foo_token"]⟩

def escrowWState : EscrowsState := fun k => if k = "foobar" then some escrowW else none

theorem C6_approve_behaviour_witness :
    ((∃ v, try_approve ⟨12345, 0⟩ "cosmos2contract" "arbitrate" "foobar" escrowWState = .ok v) ↔
      ("arbitrate" = escrowW.arbiter ∧ escrowW.is_expired ⟨12345, 0⟩ = false)) ∧
      (("arbitrate" : String) ≠ escrowW.arbiter →
        try_approve ⟨12345, 0⟩ "cosmos2contract" "arbitrate" "foobar" escrowWState =
          .error .unauthorized) ∧
      (("arbitrate" : String) = escrowW.arbiter → escrowW.is_expired ⟨12345, 0⟩ = true →
        try_approve ⟨12345, 0⟩ "cosmos2contract" "arbitrate" "foobar" escrowWState =
          .error .expired) ∧
      (∀ s2 msgs,
        try_approve ⟨12345, 0⟩ "cosmos2contract" "arbitrate" "foobar" escrowWState =
          .ok (s2, msgs) →
        s2 "foobar" = none ∧
          msgs = (if escrowW.balance.native.isEmpty then []
              else [.bankSend "cosmos2contract" escrowW.recipient escrowW.balance.native]) ++
            escrowW.balance.cw20.map
              (fun c => .cw20Transfer c.address escrowW.recipient c.amount)) :=
  C6_approve_behaviour ⟨12345, 0⟩ "cosmos2contract" "arbitrate" "foobar" escrowWState escrowW
    (by decide)

/-! ## Staking derivative (contracts/cw20-staking/src/contract.rs, state.rs) -/

/-- Modelled from the spec: `Duration` (the cw0 expiration module is absent
from the sources): an unbonding delay in blocks or seconds; `after` turns it
into the `Expiration` reached that many blocks / seconds past the current
block. -/
inductive Duration where
  | height (n : Nat)
  | time (n : Nat)
deriving Repr, DecidableEq

def Duration.after (d : Duration) (b : BlockInfo) : Expiration :=
  match d with
  | .height n => .atHeight (b.height + n)
  | .time n => .atTime (b.time + n)

/-- Supply singleton (state.rs): derivative tokens issued, native tokens
believed bonded, and the outstanding claims reserve. -/
structure Supply where
  issued : Nat
  bonded : Nat
  claims : Nat
deriving Repr, DecidableEq

/-- InvestmentInfo (state.rs).  `exit_tax` is the `Decimal`'s integer atomics:
a cosmwasm `Decimal` is the fixed-point fraction `atomics / 10^18`. -/
structure InvestmentInfo where
  owner : String
  bond_denom : String
  unbonding_period : Duration
  exit_tax : Nat
  min_withdrawal : Nat
  validator : String
deriving Repr, DecidableEq

def DECIMAL_FRACTIONAL : Nat := 1000000000000000000

/-- `Uint128 * Decimal` (cosmwasm): `self.multiply_ratio(rhs.0,
DECIMAL_FRACTIONAL)`, a floor. -/
def mulDecimal (amount atomics : Nat) : Nat :=
  amount * atomics / DECIMAL_FRACTIONAL

/-- `FALLBACK_RATIO: Decimal = Decimal::one()` (atomics `10^18`). -/
def fallbackRatio : Nat := DECIMAL_FRACTIONAL

/-- `Uint128::multiply_ratio`: floor of `self * nominator / denominator`; the
source panics on a zero denominator, which the callers below surface as an
explicit abort error. -/
def multiplyRatio (a nom denom : Nat) : Nat := a * nom / denom

/-- Claim record of the external claims ledger (cw-controllers — modelled from
the spec): an amount with a release condition. -/
structure Claim where
  amount : Nat
  release_at : Expiration
deriving Repr, DecidableEq

/-- ContractError of cw20-staking (its `error.rs` is absent from the sources;
the variants are those raised in `contract.rs`).  `panicDivZero` stands for
the `multiply_ratio` panic on a zero denominator, which aborts the whole
invocation. -/
inductive StakingError where
  | std (e : StdErr)
  | unauthorized
  | bondedMismatch (stored queried : Nat)
  | unbondTooSmall (minBonded : Nat) (denom : String)
  | balanceTooSmall
  | nothingToClaim
  | emptyBalance (denom : String)
  | panicDivZero
deriving Repr, DecidableEq

/-- Checked `Uint128` subtraction `(a - b)?`: Underflow error instead of going
negative. -/
def checkedSub (a b : Nat) : Except StakingError Nat :=
  if a < b then .error (.std (.underflow a b)) else .ok (a - b)

/-- State touched by the staking operations: cw20 balances and total supply of
the embedded derivative token, the `Supply` singleton and the per-holder claim
queues. -/
structure StakingState where
  balances : String → Nat
  tokenSupply : Nat
  supply : Supply
  claims : String → List Claim

/-- Modelled from the spec: `handle_mint` of the embedded cw20-base token
(cw20-base is absent from the sources): credit the recipient and raise the
total supply. -/
def handleMint (s : StakingState) (rcpt : String) (amount : Nat) : StakingState :=
  { s with
    balances := fun a => if a = rcpt then s.balances a + amount else s.balances a,
    tokenSupply := s.tokenSupply + amount }

/-- Modelled from the spec: `handle_burn` of the embedded cw20-base token
(cw20-base is absent from the sources): checked decrement of the caller's
balance and of the total supply — per the spec's error taxonomy an arithmetic
underflow is always a fatal error, never clamped. -/
def handleBurn (s : StakingState) (sender : String) (amount : Nat) :
    Except StakingError StakingState :=
  match checkedSub (s.balances sender) amount with
  | .error e => .error e
  | .ok b =>
    match checkedSub s.tokenSupply amount with
    | .error e => .error e
    | .ok t =>
      .ok { s with
        balances := fun a => if a = sender then b else s.balances a,
        tokenSupply := t }

/-- Outbound messages of the staking contract. -/
inductive StakingMsgOut where
  | delegate (validator : String) (amount : Coin)
  | undelegate (validator : String) (amount : Coin)
  | bankSend (toAddr : String) (amount : List Coin)
deriving Repr, DecidableEq

/-- `assert_bonds`: the cached `supply.bonded` must equal the oracle-reported
delegation total, else a fatal `BondedMismatch`. -/
def assert_bonds (supply : Supply) (bonded : Nat) : Except StakingError Unit :=
  if supply.bonded ≠ bonded then .error (.bondedMismatch supply.bonded bonded)
  else .ok ()

/-- `bond`: locate the payment in the configured bond denom (`EmptyBalance`
otherwise), check the cached supply against the oracle-reported `bonded`
(`assert_bonds`), mint `payment * issued / bonded` derivative tokens — or
`payment * FALLBACK_RATIO` when either side is zero — update the supply and
delegate the payment.  `oracleBonded` is the result of the external
`get_bonded` query. -/
def bond (invest : InvestmentInfo) (oracleBonded : Nat) (sender : String)
    (sent_funds : List Coin) (s : StakingState) :
    Except StakingError (StakingState × List StakingMsgOut) :=
  match sent_funds.find? (fun c => c.denom == invest.bond_denom) with
  | none => .error (.emptyBalance invest.bond_denom)
  | some payment =>
    match assert_bonds s.supply oracleBonded with
    | .error e => .error e
    | .ok _ =>
      let toMint :=
        if s.supply.issued = 0 ∨ oracleBonded = 0 then
          mulDecimal payment.amount fallbackRatio
        else multiplyRatio payment.amount s.supply.issued oracleBonded
      let supply2 : Supply :=
        { issued := s.supply.issued + toMint,
          bonded := oracleBonded + payment.amount,
          claims := s.supply.claims }
      .ok (handleMint { s with supply := supply2 } sender toMint,
        [.delegate invest.validator payment])

/-- `unbond`: reject amounts below `min_withdrawal`; burn the full amount from
the caller; re-mint the exit tax to the owner (only when positive); compute
the checked remainder `amount - tax`; check the cached supply against the
oracle; redeem `remainder * bonded / issued` natives pro-rata (computed from
the pre-update `bonded` and `issued`); decrement `bonded` and `issued`,
increment the claims reserve, file the caller's claim maturing after the
unbonding period, and undelegate. -/
def unbond (invest : InvestmentInfo) (oracleBonded : Nat) (block : BlockInfo)
    (sender : String) (amount : Nat) (s : StakingState) :
    Except StakingError (StakingState × List StakingMsgOut) :=
  if amount < invest.min_withdrawal then
    .error (.unbondTooSmall invest.min_withdrawal invest.bond_denom)
  else
    let tax := mulDecimal amount invest.exit_tax
    match handleBurn s sender amount with
    | .error e => .error e
    | .ok s1 =>
      let s2 := if tax > 0 then handleMint s1 invest.owner tax else s1
      match checkedSub amount tax with
      | .error e => .error e
      | .ok remainder =>
        match assert_bonds s2.supply oracleBonded with
        | .error e => .error e
        | .ok _ =>
          if s2.supply.issued = 0 then .error .panicDivZero
          else
            let unbondAmt := multiplyRatio remainder oracleBonded s2.supply.issued
            match checkedSub oracleBonded unbondAmt with
            | .error e => .error e
            | .ok bonded2 =>
              match checkedSub s2.supply.issued remainder with
              | .error e => .error e
              | .ok issued2 =>
                let supply2 : Supply :=
                  ⟨issued2, bonded2, s2.supply.claims + unbondAmt⟩
                let claims2 := fun a =>
                  if a = sender then
                    s2.claims a ++ [⟨unbondAmt, invest.unbonding_period.after block⟩]
                  else s2.claims a
                .ok ({ s2 with supply := supply2, claims := claims2 },
                  [.undelegate invest.validator ⟨invest.bond_denom, unbondAmt⟩])

/-- Modelled from the spec: `claim_tokens` of the external claims ledger
(cw-controllers is absent from the sources).  Per the spec: settlement removes
claims whose release condition has passed, in insertion order, summing amounts
up to the optional cap; claims are never split — each affordable matured claim
is removed whole and settlement stops at the first matured claim it cannot
fully cover.  Returns the released total and the remaining queue. -/
def claimTokensAux (block : BlockInfo) (cap : Option Nat) (acc : Nat) :
    List Claim → Nat × List Claim
  | [] => (acc, [])
  | c :: rest =>
    if c.release_at.isExpired block then
      match cap with
      | some limit =>
        if limit < acc + c.amount then (acc, c :: rest)
        else claimTokensAux block cap (acc + c.amount) rest
      | none => claimTokensAux block cap (acc + c.amount) rest
    else
      let r := claimTokensAux block cap acc rest
      (r.1, c :: r.2)

def claimTokens (claims : List Claim) (block : BlockInfo) (cap : Option Nat) :
    Nat × List Claim :=
  claimTokensAux block cap 0 claims

/-- `claim`: requires the contract's liquid bond-denom balance (an external
bank query) to reach `min_withdrawal`; settles the caller's matured claims
capped by that balance (`NothingToClaim` when zero), decrements
`supply.claims` by the released total and pays it out.  Note that no
`assert_bonds` check appears on this path. -/
def claim (invest : InvestmentInfo) (contractBalance : Nat) (block : BlockInfo)
    (sender : String) (s : StakingState) :
    Except StakingError (StakingState × List StakingMsgOut) :=
  if contractBalance < invest.min_withdrawal then .error .balanceTooSmall
  else
    let r := claimTokens (s.claims sender) block (some contractBalance)
    if r.1 = 0 then .error .nothingToClaim
    else
      match checkedSub s.supply.claims r.1 with
      | .error e => .error e
      | .ok claims2 =>
        let supply2 : Supply := { s.supply with claims := claims2 }
        let newClaims := fun a => if a = sender then r.2 else s.claims a
        .ok ({ s with supply := supply2, claims := newClaims },
          [.bankSend sender [⟨invest.bond_denom, r.1⟩]])

/-- `_bond_all_tokens`: only callable by the contract itself (`Unauthorized`
otherwise); subtract the claims reserve from the liquid balance and require
`min_withdrawal` left over — either underflow is a silent no-op (success, no
messages, supply untouched, so the preceding reward withdrawal is not
reverted); otherwise bond the whole free amount (balance minus claims).  Note
that no `assert_bonds` check appears on this path. -/
def _bond_all_tokens (invest : InvestmentInfo) (contractBalance : Nat)
    (contractAddr sender : String) (s : StakingState) :
    Except StakingError (StakingState × List StakingMsgOut) :=
  if sender ≠ contractAddr then .error .unauthorized
  else
    match checkedSub contractBalance s.supply.claims with
    | .error _ => .ok (s, [])
    | .ok free =>
      match checkedSub free invest.min_withdrawal with
      | .error _ => .ok (s, [])
      | .ok _ =>
        .ok ({ s with supply := { s.supply with bonded := s.supply.bonded + free } },
          [.delegate invest.validator ⟨invest.bond_denom, free⟩])

/-- C7: `_BondAllTokens` rejects every sender other than the contract's own
address with `Unauthorized`; when the liquid balance minus the claims reserve
minus `min_withdrawal` would underflow, the call is a silent no-op returning
success with no messages and the state unchanged; otherwise it increments
`bonded` by the free amount (balance minus claims) and delegates exactly that
amount. -/
theorem C7_bond_all_tokens_behaviour (invest : InvestmentInfo) (contractBalance : Nat)
    (contractAddr sender : String) (s : StakingState) :
    (sender ≠ contractAddr →
      _bond_all_tokens invest contractBalance contractAddr sender s = .error .unauthorized) ∧
      (sender = contractAddr →
        ((contractBalance < s.supply.claims ∨
            contractBalance - s.supply.claims < invest.min_withdrawal) →
          _bond_all_tokens invest contractBalance contractAddr sender s = .ok (s, [])) ∧
        (s.supply.claims ≤ contractBalance →
          invest.min_withdrawal ≤ contractBalance - s.supply.claims →
          _bond_all_tokens invest contractBalance contractAddr sender s = .ok
            ({ s with supply := { s.supply with
                bonded := s.supply.bonded + (contractBalance - s.supply.claims) } },
              [.delegate invest.validator
                ⟨invest.bond_denom, contractBalance - s.supply.claims⟩]))) := by
  constructor
  · intro hne
    unfold _bond_all_tokens
    rw [if_pos hne]
  · intro hself
    have hred : ∀ r, _bond_all_tokens invest contractBalance contractAddr sender s = r ↔
        (match checkedSub contractBalance s.supply.claims with
          | .error _ => .ok (s, [])
          | .ok free =>
            match checkedSub free invest.min_withdrawal with
            | .error _ => .ok (s, [])
            | .ok _ =>
              .ok ({ s with supply := { s.supply with bonded := s.supply.bonded + free } },
                [.delegate invest.validator ⟨invest.bond_denom, free⟩])) = r := by
      intro r
      unfold _bond_all_tokens
      rw [if_neg (not_not_intro hself)]
    constructor
    · intro hcase
      rw [hred]
      rcases hcase with hlt | hlt2
      · unfold checkedSub
        rw [if_pos hlt]
      · unfold checkedSub
        by_cases h1 : contractBalance < s.supply.claims
        · rw [if_pos h1]
        · rw [if_neg h1]
          simp [hlt2]
    · intro h1 h2
      rw [hred]
      unfold checkedSub
      rw [if_neg (Nat.not_lt.mpr h1)]
      simp [Nat.not_lt.mpr h2]

def investW : InvestmentInfo :=
  ⟨"creator", "ustake", .height 259200, 100000000000000000, 50, "default-validator"⟩

def stakingW : StakingState :=
  { balances := fun a => if a = "bob" then 1000 else 0,
    tokenSupply := 1000,
    supply := ⟨1000, 1500, 100⟩,
    claims := fun _ => [] }

theorem C7_bond_all_tokens_behaviour_witness :
    _bond_all_tokens investW 1100 "cosmos2contract" "cosmos2contract" stakingW = .ok
      ({ stakingW with supply := { stakingW.supply with
          bonded := stakingW.supply.bonded + (1100 - stakingW.supply.claims) } },
        [.delegate investW.validator ⟨investW.bond_denom, 1100 - stakingW.supply.claims⟩]) :=
  ((C7_bond_all_tokens_behaviour investW 1100 "cosmos2contract" "cosmos2contract"
    stakingW).2 rfl).2 (by decide) (by decide)

theorem mulDecimal_fallback (a : Nat) : mulDecimal a fallbackRatio = a := by
  unfold mulDecimal fallbackRatio
  exact Nat.mul_div_cancel a (by norm_num [DECIMAL_FRACTIONAL])

/-- C4: when a payment in the configured bond denom is among the sent funds
and the cached `supply.bonded` matches the oracle, `bond` succeeds and mints
`floor(payment * issued / bonded)` derivative tokens when both `issued` and
the oracle-confirmed `bonded` are nonzero, else exactly `payment` (the 1:1
`FALLBACK_RATIO` bootstrap); it sets `bonded := bonded + payment`,
`issued := issued + minted`, credits the mint to the bonder and delegates the
payment. -/
theorem C4_bond_pricing (invest : InvestmentInfo) (oracleBonded : Nat) (sender : String)
    (sent_funds : List Coin) (s : StakingState) (payment : Coin)
    (hpay : sent_funds.find? (fun c => c.denom == invest.bond_denom) = some payment)
    (hmatch : s.supply.bonded = oracleBonded) :
    bond invest oracleBonded sender sent_funds s = .ok
      (handleMint { s with supply :=
          { issued := s.supply.issued +
              (if s.supply.issued = 0 ∨ oracleBonded = 0 then payment.amount
               else payment.amount * s.supply.issued / oracleBonded),
            bonded := oracleBonded + payment.amount,
            claims := s.supply.claims } } sender
        (if s.supply.issued = 0 ∨ oracleBonded = 0 then payment.amount
         else payment.amount * s.supply.issued / oracleBonded),
      [.delegate invest.validator payment]) := by
  have hassert : assert_bonds s.supply oracleBonded = .ok () := by
    unfold assert_bonds
    rw [if_neg (not_not_intro hmatch)]
  by_cases hz : s.supply.issued = 0 ∨ oracleBonded = 0
  · simp [bond, hpay, hassert, hz, mulDecimal_fallback]
  · simp [bond, hpay, hassert, hz, multiplyRatio]

theorem C4_bond_pricing_witness :
    bond investW 1500 "alice" [⟨"random", 10⟩, ⟨"ustake", 3000⟩] stakingW = .ok
      (handleMint { stakingW with supply :=
          { issued := stakingW.supply.issued +
              (if stakingW.supply.issued = 0 ∨ (1500 : Nat) = 0 then (3000 : Nat)
               else 3000 * stakingW.supply.issued / 1500),
            bonded := 1500 + 3000,
            claims := stakingW.supply.claims } } "alice"
        (if stakingW.supply.issued = 0 ∨ (1500 : Nat) = 0 then (3000 : Nat)
         else 3000 * stakingW.supply.issued / 1500),
      [.delegate investW.validator ⟨"ustake", 3000⟩]) :=
  C4_bond_pricing investW 1500 "alice" [⟨"random", 10⟩, ⟨"ustake", 3000⟩] stakingW
    ⟨"ustake", 3000⟩ (by decide) (by decide)

theorem mulDecimal_le (a e : Nat) (he : e ≤ DECIMAL_FRACTIONAL) : mulDecimal a e ≤ a := by
  unfold mulDecimal
  calc a * e / DECIMAL_FRACTIONAL ≤ a * DECIMAL_FRACTIONAL / DECIMAL_FRACTIONAL := by
        exact Nat.div_le_div_right (Nat.mul_le_mul_left a he)
    _ = a := Nat.mul_div_cancel a (by norm_num [DECIMAL_FRACTIONAL])

theorem multiplyRatio_le (r b i : Nat) (hi : i ≠ 0) (hr : r ≤ i) : multiplyRatio r b i ≤ b := by
  unfold multiplyRatio
  calc r * b / i ≤ i * b / i := by
        exact Nat.div_le_div_right (Nat.mul_le_mul_right b hr)
    _ = b := Nat.mul_div_cancel_left b (Nat.pos_of_ne_zero hi)

/-- C3: a successful `Unbond(amount)` — amount at least `min_withdrawal`,
sufficient caller balance, tax fraction at most one, cache matching the
oracle, nonzero issuance and remainder within issuance — burns `amount` from
the caller, mints `tax = floor(amount * exit_tax)` to the owner, redeems
`unbond_native = floor((amount - tax) * bonded / issued)` computed from the
pre-update `bonded` and `issued`, then decrements `bonded` by `unbond_native`
and `issued` by the remainder, increments the claims reserve, appends a claim
maturing after the unbonding period and undelegates `unbond_native`.  Amounts
below `min_withdrawal` fail with `UnbondTooSmall` (first conjunct). -/
theorem C3_unbond_accounting (invest : InvestmentInfo) (oracleBonded : Nat) (block : BlockInfo)
    (sender : String) (amount : Nat) (s : StakingState)
    (hbal : amount ≤ s.balances sender)
    (hsup : amount ≤ s.tokenSupply)
    (htaxle : invest.exit_tax ≤ DECIMAL_FRACTIONAL)
    (hmatch : s.supply.bonded = oracleBonded)
    (hiz : s.supply.issued ≠ 0)
    (hrem : amount - amount * invest.exit_tax / DECIMAL_FRACTIONAL ≤ s.supply.issued) :
    (amount < invest.min_withdrawal →
      unbond invest oracleBonded block sender amount s =
        .error (.unbondTooSmall invest.min_withdrawal invest.bond_denom)) ∧
    (invest.min_withdrawal ≤ amount →
      unbond invest oracleBonded block sender amount s = .ok
        ({ balances := fun a =>
              if a = invest.owner then
                (if a = sender then s.balances a - amount else s.balances a) +
                  amount * invest.exit_tax / DECIMAL_FRACTIONAL
              else (if a = sender then s.balances a - amount else s.balances a),
            tokenSupply := s.tokenSupply - amount +
              amount * invest.exit_tax / DECIMAL_FRACTIONAL,
            supply :=
              ⟨s.supply.issued - (amount - amount * invest.exit_tax / DECIMAL_FRACTIONAL),
                oracleBonded - (amount - amount * invest.exit_tax / DECIMAL_FRACTIONAL) *
                  oracleBonded / s.supply.issued,
                s.supply.claims + (amount - amount * invest.exit_tax / DECIMAL_FRACTIONAL) *
                  oracleBonded / s.supply.issued⟩,
            claims := fun a =>
              if a = sender then
                s.claims a ++
                  [⟨(amount - amount * invest.exit_tax / DECIMAL_FRACTIONAL) *
                      oracleBonded / s.supply.issued,
                    invest.unbonding_period.after block⟩]
              else s.claims a },
          [.undelegate invest.validator
            ⟨invest.bond_denom, (amount - amount * invest.exit_tax / DECIMAL_FRACTIONAL) *
              oracleBonded / s.supply.issued⟩])) := by
  constructor
  · intro hlt
    unfold unbond
    rw [if_pos hlt]
  · intro hmin
    have htax : mulDecimal amount invest.exit_tax ≤ amount := mulDecimal_le _ _ htaxle
    have hburn : handleBurn s sender amount = .ok
        { s with
          balances := fun a => if a = sender then s.balances sender - amount else s.balances a,
          tokenSupply := s.tokenSupply - amount } := by
      unfold handleBurn checkedSub
      rw [if_neg (Nat.not_lt.mpr hbal), if_neg (Nat.not_lt.mpr hsup)]
    have hcs1 : checkedSub amount (mulDecimal amount invest.exit_tax) =
        .ok (amount - mulDecimal amount invest.exit_tax) := by
      unfold checkedSub
      rw [if_neg (Nat.not_lt.mpr htax)]
    have hassert : assert_bonds s.supply oracleBonded = .ok () := by
      unfold assert_bonds
      rw [if_neg (not_not_intro hmatch)]
    have hub : multiplyRatio (amount - mulDecimal amount invest.exit_tax) oracleBonded
        s.supply.issued ≤ oracleBonded :=
      multiplyRatio_le _ _ _ hiz (by simpa [mulDecimal] using hrem)
    have hcs2 : checkedSub oracleBonded (multiplyRatio
        (amount - mulDecimal amount invest.exit_tax) oracleBonded s.supply.issued) =
        .ok (oracleBonded - multiplyRatio (amount - mulDecimal amount invest.exit_tax)
          oracleBonded s.supply.issued) := by
      unfold checkedSub
      rw [if_neg (Nat.not_lt.mpr hub)]
    have hcs3 : checkedSub s.supply.issued (amount - mulDecimal amount invest.exit_tax) =
        .ok (s.supply.issued - (amount - mulDecimal amount invest.exit_tax)) := by
      unfold checkedSub
      rw [if_neg (Nat.not_lt.mpr (by simpa [mulDecimal] using hrem))]
    by_cases htz : 0 < mulDecimal amount invest.exit_tax
    · simp only [unbond, if_neg (Nat.not_lt.mpr hmin), hburn, if_pos htz, handleMint,
        hcs1, hassert, if_neg hiz, hcs2, hcs3]
      simp only [Except.ok.injEq, Prod.mk.injEq, StakingState.mk.injEq, Supply.mk.injEq,
        mulDecimal, multiplyRatio]
      refine ⟨⟨?_, trivial, trivial, trivial⟩, trivial⟩
      funext a
      by_cases h1 : a = sender
      · by_cases h2 : a = invest.owner <;> simp [h1, h2]
      · by_cases h2 : a = invest.owner
        · have h3 : ¬ invest.owner = sender := h2 ▸ h1
          simp [h1, h2, h3]
        · simp [h1, h2]
    · have htz0 : mulDecimal amount invest.exit_tax = 0 := Nat.eq_zero_of_not_pos htz
      simp only [unbond, if_neg (Nat.not_lt.mpr hmin), hburn, if_neg htz,
        hcs1, hassert, if_neg hiz, hcs2, hcs3]
      simp only [Except.ok.injEq, Prod.mk.injEq, StakingState.mk.injEq, Supply.mk.injEq,
        mulDecimal, multiplyRatio]
      have htz0' : amount * invest.exit_tax / DECIMAL_FRACTIONAL = 0 := by
        simpa [mulDecimal] using htz0
      refine ⟨⟨?_, ?_, trivial, trivial⟩, trivial⟩
      · funext a
        by_cases h1 : a = sender
        · by_cases h2 : a = invest.owner <;> simp [h1, h2, htz0']
        · by_cases h2 : a = invest.owner
          · have h3 : ¬ invest.owner = sender := h2 ▸ h1
            simp [h1, h2, h3, htz0']
          · simp [h1, h2, htz0']
      · rw [htz0']
        simp

theorem C3_unbond_accounting_witness :
    unbond investW 1500 ⟨12345, 0⟩ "bob" 600 stakingW = .ok
      ({ balances := fun a =>
            if a = investW.owner then
              (if a = "bob" then stakingW.balances a - 600 else stakingW.balances a) +
                600 * investW.exit_tax / DECIMAL_FRACTIONAL
            else (if a = "bob" then stakingW.balances a - 600 else stakingW.balances a),
          tokenSupply := stakingW.tokenSupply - 600 +
            600 * investW.exit_tax / DECIMAL_FRACTIONAL,
          supply :=
            ⟨stakingW.supply.issued - (600 - 600 * investW.exit_tax / DECIMAL_FRACTIONAL),
              1500 - (600 - 600 * investW.exit_tax / DECIMAL_FRACTIONAL) * 1500 /
                stakingW.supply.issued,
              stakingW.supply.claims + (600 - 600 * investW.exit_tax / DECIMAL_FRACTIONAL) *
                1500 / stakingW.supply.issued⟩,
          claims := fun a =>
            if a = "bob" then
              stakingW.claims a ++
                [⟨(600 - 600 * investW.exit_tax / DECIMAL_FRACTIONAL) * 1500 /
                    stakingW.supply.issued,
                  investW.unbonding_period.after ⟨12345, 0⟩⟩]
            else stakingW.claims a },
        [.undelegate investW.validator
          ⟨investW.bond_denom, (600 - 600 * investW.exit_tax / DECIMAL_FRACTIONAL) * 1500 /
            stakingW.supply.issued⟩]) :=
  (C3_unbond_accounting investW 1500 ⟨12345, 0⟩ "bob" 600 stakingW (by decide) (by decide)
    (by decide) (by decide) (by decide) (by decide)).2 (by decide)

/-- C2 (amended): the bonded-vs-oracle consistency check (`assert_bonds`) is
performed by `Bond` and by `Unbond` — both fail with a fatal, propagated
`BondedMismatch` whenever the cached `supply.bonded` differs from the oracle's
report, never repairing the cache — but `Claim` and `_BondAllTokens` perform
no such check (see the counterexample theorem). -/
theorem C2_assert_bonds_only_in_bond_and_unbond (invest : InvestmentInfo)
    (oracleBonded : Nat) (block : BlockInfo) (sender : String) (amount : Nat)
    (sent_funds : List Coin) (s : StakingState) (payment : Coin)
    (hpay : sent_funds.find? (fun c => c.denom == invest.bond_denom) = some payment)
    (hmm : s.supply.bonded ≠ oracleBonded) :
    bond invest oracleBonded sender sent_funds s =
      .error (.bondedMismatch s.supply.bonded oracleBonded) ∧
      (invest.min_withdrawal ≤ amount → amount ≤ s.balances sender →
        amount ≤ s.tokenSupply →
        amount * invest.exit_tax / DECIMAL_FRACTIONAL ≤ amount →
        unbond invest oracleBonded block sender amount s =
          .error (.bondedMismatch s.supply.bonded oracleBonded)) := by
  have hassert : assert_bonds s.supply oracleBonded =
      .error (.bondedMismatch s.supply.bonded oracleBonded) := by
    unfold assert_bonds
    rw [if_pos hmm]
  constructor
  · simp [bond, hpay, hassert]
  · intro hmin hbal hsup htax
    have hburn : handleBurn s sender amount = .ok
        { s with
          balances := fun a => if a = sender then s.balances sender - amount else s.balances a,
          tokenSupply := s.tokenSupply - amount } := by
      unfold handleBurn checkedSub
      rw [if_neg (Nat.not_lt.mpr hbal), if_neg (Nat.not_lt.mpr hsup)]
    have hcs1 : checkedSub amount (mulDecimal amount invest.exit_tax) =
        .ok (amount - mulDecimal amount invest.exit_tax) := by
      unfold checkedSub
      rw [if_neg (Nat.not_lt.mpr (by simpa [mulDecimal] using htax))]
    by_cases htz : 0 < mulDecimal amount invest.exit_tax
    · simp [unbond, Nat.not_lt.mpr hmin, hburn, if_pos htz, handleMint, hcs1, hassert]
    · simp [unbond, Nat.not_lt.mpr hmin, hburn, if_neg htz, hcs1, hassert]

/-- State with a cached `bonded` of 999 while the oracle would report 0, and a
matured claim of 100 for "bob". -/
def stakingCE : StakingState :=
  { balances := fun _ => 0,
    tokenSupply := 0,
    supply := ⟨1000, 999, 100⟩,
    claims := fun a => if a = "bob" then [⟨100, .atHeight 5⟩] else [] }

/-- C2 counterexample: with the cached `supply.bonded = 999` different from
the oracle-reported delegation total (0), both `Claim` and `_BondAllTokens`
succeed (and mutate the supply) — neither operation consults the oracle, so
"every mutating operation verifies the invariant" is false as stated. -/
theorem C2_counterexample_claim_and_bond_all_skip_check :
    stakingCE.supply.bonded ≠ 0 ∧
      (∃ v, claim investW 100 ⟨10, 0⟩ "bob" stakingCE = .ok v) ∧
      (∃ v, _bond_all_tokens investW 1000 "cosmos2contract" "cosmos2contract" stakingCE =
        .ok v) :=
  ⟨by decide, ⟨_, rfl⟩, ⟨_, rfl⟩⟩

theorem C2_assert_bonds_witness :
    bond investW 1400 "bob" [⟨"ustake", 100⟩] stakingW =
      .error (.bondedMismatch stakingW.supply.bonded 1400) ∧
      unbond investW 1400 ⟨12345, 0⟩ "bob" 600 stakingW =
        .error (.bondedMismatch stakingW.supply.bonded 1400) :=
  ⟨(C2_assert_bonds_only_in_bond_and_unbond investW 1400 ⟨12345, 0⟩ "bob" 600
      [⟨"ustake", 100⟩] stakingW ⟨"ustake", 100⟩ (by decide) (by decide)).1,
    (C2_assert_bonds_only_in_bond_and_unbond investW 1400 ⟨12345, 0⟩ "bob" 600
      [⟨"ustake", 100⟩] stakingW ⟨"ustake", 100⟩ (by decide) (by decide)).2
      (by decide) (by decide) (by decide) (by decide)⟩

/-! ## Membership ledger (contracts/cw4-stake/src/contract.rs) -/

/-- Config of cw4-stake (its `state.rs` is absent from the sources; the fields
are those read by `contract.rs`). -/
structure Cw4Config where
  denom : String
  tokens_per_weight : Nat
  min_bond : Nat
  unbonding_period : Duration
deriving Repr, DecidableEq

/-- 2^64: the weight is stored as a `u64`, and `calc_weight` casts the `u128`
quotient with `w as u64`, a truncating cast. -/
def UINT64_MOD : Nat := 18446744073709551616

/-- `calc_weight`: stake below `min_bond` gives no membership; otherwise the
weight is `stake / tokens_per_weight` truncated to `u64` by the `as` cast. -/
def calc_weight (stake : Nat) (cfg : Cw4Config) : Option Nat :=
  if stake < cfg.min_bond then none
  else some (stake / cfg.tokens_per_weight % UINT64_MOD)

/-- cw4-stake state restricted to what the claims concern: raw stakes, the
current member weights and the claim queues (snapshot heights, the running
total weight and hook notifications are omitted). -/
structure Cw4State where
  stake : String → Nat
  members : String → Option Nat
  claims : String → List Claim

/-- `update_membership` restricted to the member map: recompute the weight,
short-circuit when unchanged, otherwise save the new weight or remove the
entry. -/
def update_membership (st : Cw4State) (sender : String) (new_stake : Nat)
    (cfg : Cw4Config) : Cw4State :=
  let newW := calc_weight new_stake cfg
  let oldW := st.members sender
  if newW = oldW then st
  else { st with members := fun a => if a = sender then newW else st.members a }

/-- ContractError of cw4-stake (its `error.rs` is absent from the sources; the
variants are those raised in `contract.rs`). -/
inductive Cw4Error where
  | std (e : StdErr)
  | noFunds
  | missingDenom (denom : String)
  | extraDenoms (denom : String)
  | nothingToClaim
deriving Repr, DecidableEq

/-- `handle_bond`: requires exactly one sent coin, of the configured denom,
with nonzero amount; increments the caller's stake and recomputes membership. -/
def handle_bond (cfg : Cw4Config) (sender : String) (sent_funds : List Coin)
    (st : Cw4State) : Except Cw4Error Cw4State :=
  match sent_funds with
  | [] => .error .noFunds
  | [c] =>
    if c.denom = cfg.denom then
      if c.amount = 0 then .error .noFunds
      else
        let newStake := st.stake sender + c.amount
        let st1 := { st with stake := fun a => if a = sender then newStake else st.stake a }
        .ok (update_membership st1 sender newStake cfg)
    else .error (.missingDenom cfg.denom)
  | _ => .error (.extraDenoms cfg.denom)

/-- `handle_unbond`: checked decrement of the caller's stake (Underflow error
when the amount exceeds it), files a claim maturing after the unbonding
period (claims ledger modelled from the spec) and recomputes membership. -/
def handle_unbond (cfg : Cw4Config) (block : BlockInfo) (sender : String) (amount : Nat)
    (st : Cw4State) : Except Cw4Error Cw4State :=
  if st.stake sender < amount then
    .error (.std (.underflow (st.stake sender) amount))
  else
    let newStake := st.stake sender - amount
    let st1 := { st with
      stake := fun a => if a = sender then newStake else st.stake a,
      claims := fun a =>
        if a = sender then st.claims a ++ [⟨amount, cfg.unbonding_period.after block⟩]
        else st.claims a }
    .ok (update_membership st1 sender newStake cfg)

theorem update_membership_members (st : Cw4State) (sender : String) (new_stake : Nat)
    (cfg : Cw4Config) :
    (update_membership st sender new_stake cfg).members sender = calc_weight new_stake cfg := by
  unfold update_membership
  by_cases h : calc_weight new_stake cfg = st.members sender
  · rw [if_pos h]
    exact h.symm
  · rw [if_neg h]
    simp

theorem update_membership_stake (st : Cw4State) (sender : String) (new_stake : Nat)
    (cfg : Cw4Config) :
    (update_membership st sender new_stake cfg).stake = st.stake := by
  unfold update_membership
  by_cases h : calc_weight new_stake cfg = st.members sender
  · rw [if_pos h]
  · rw [if_neg h]

/-- C9 (amended): after every successful Bond or Unbond the stored member
entry for the caller equals `calc_weight` of the new stake: absent exactly
when the stake is below `min_bond` (never stored as weight zero), and
otherwise `floor(stake / tokens_per_weight)` reduced modulo 2^64 — the `as
u64` cast truncates the u128 quotient, which coincides with the plain floor
whenever the quotient is below 2^64. -/
theorem C9_weight_after_bond_unbond (cfg : Cw4Config) (block : BlockInfo) (sender : String)
    (st st2 : Cw4State) :
    (∀ funds, handle_bond cfg sender funds st = .ok st2 →
      st2.members sender = calc_weight (st2.stake sender) cfg) ∧
      (∀ amount, handle_unbond cfg block sender amount st = .ok st2 →
        st2.members sender = calc_weight (st2.stake sender) cfg) ∧
      (∀ stake, (calc_weight stake cfg = none ↔ stake < cfg.min_bond) ∧
        (cfg.min_bond ≤ stake →
          calc_weight stake cfg = some (stake / cfg.tokens_per_weight % UINT64_MOD))) := by
  refine ⟨?_, ?_, ?_⟩
  · intro funds h
    match funds with
    | [] => simp [handle_bond] at h
    | [c] =>
      simp only [handle_bond] at h
      split at h
      · split at h
        · exact absurd h (by simp)
        · injection h with h2
          subst h2
          rw [update_membership_members, update_membership_stake]
          simp
      · exact absurd h (by simp)
    | c1 :: c2 :: rest => simp [handle_bond] at h
  · intro amount h
    simp only [handle_unbond] at h
    split at h
    · exact absurd h (by simp)
    · injection h with h2
      subst h2
      rw [update_membership_members, update_membership_stake]
      simp
  · intro stake
    constructor
    · by_cases hlt : stake < cfg.min_bond <;> simp [calc_weight, hlt]
    · intro hle
      simp [calc_weight, Nat.not_lt.mpr hle]

def cw4CfgCE : Cw4Config := ⟨"stake", 1, 1, .height 100⟩

def cw4St0 : Cw4State := ⟨fun _ => 0, fun _ => none, fun _ => []⟩

/-- C9 counterexample: bonding 2^64 tokens at `tokens_per_weight = 1`,
`min_bond = 1` stores weight 0 — the `as u64` cast truncates the quotient —
while `floor(stake / tokens_per_weight) = 2^64 ≠ 0`, so "the recomputed voting
weight equals floor(stake / tokens_per_weight)" is false as stated. -/
theorem C9_counterexample_u64_truncation :
    ∃ st2, handle_bond cw4CfgCE "bob" [⟨"stake", UINT64_MOD⟩] cw4St0 = .ok st2 ∧
      st2.stake "bob" = UINT64_MOD ∧
      cw4CfgCE.min_bond ≤ st2.stake "bob" ∧
      st2.members "bob" = some 0 ∧
      st2.stake "bob" / cw4CfgCE.tokens_per_weight ≠ 0 :=
  ⟨_, rfl, by decide, by decide, by decide, by decide⟩

def cw4CfgW : Cw4Config := ⟨"stake", 1000, 5000, .height 100⟩

def cw4StW : Cw4State :=
  (handle_bond cw4CfgW "somebody" [⟨"stake", 12000⟩] cw4St0).toOption.getD cw4St0

theorem C9_weight_after_bond_unbond_witness :
    handle_bond cw4CfgW "somebody" [⟨"stake", 12000⟩] cw4St0 = .ok cw4StW ∧
      cw4StW.members "somebody" = calc_weight (cw4StW.stake "somebody") cw4CfgW :=
  ⟨rfl, (C9_weight_after_bond_unbond cw4CfgW ⟨1, 1⟩ "somebody" cw4St0 cw4StW).1
    [⟨"stake", 12000⟩] rfl⟩
